import Mathlib

/-!
Shallow embedding of the DriveReader extraction subsystem (src/index.js:
`main` plus the `text-conversions/read-text` module it requires).

JavaScript strings are modelled as `List Char`; Node filesystem paths are
modelled as normalized segment lists; the remote Drive API, the PDF and
word-binary parsers and the local filesystem are modelled by an explicit
environment (`Env`) recording, per file id, whether each stage succeeds and
what text it yields.  Asynchronous dispatch in `main` is modelled by an
event trace (`mainTrace`) that linearizes the JavaScript event loop.
-/

/-- JavaScript string, modelled as its list of characters. -/
abbrev Str := List Char

/-- Newline character used by `split` slash `join` in the source. -/
def nlChar : Char := '\n'

/-- Comma character replaced by the spreadsheet extractor. -/
def commaChar : Char := ','

/-- Path separator character. -/
def slashChar : Char := '/'

/-- Dot character used for extension stripping and path normalization. -/
def dotChar : Char := '.'

/-- JavaScript `String.prototype.split(sep)` for a one-character separator:
splits into the (possibly empty) pieces between occurrences of `sep`. -/
def splitOnChar (sep : Char) : Str → List Str
  | [] => [[]]
  | c :: rest =>
    match splitOnChar sep rest with
    | [] => [[]]
    | h :: t => if c = sep then [] :: h :: t else (c :: h) :: t

/-- JavaScript `String.prototype.trim()`: drop whitespace from both ends. -/
def trimStr (s : Str) : Str :=
  ((s.dropWhile Char.isWhitespace).reverse.dropWhile Char.isWhitespace).reverse

/-- JavaScript `String.prototype.replace` with a global one-character
pattern (as in `line.replace` of the spreadsheet extractor): every
occurrence of `c` is replaced by the string `rep`. -/
def replaceAllChar (c : Char) (rep : Str) : Str → Str
  | [] => []
  | ch :: rest => (if ch = c then rep else [ch]) ++ replaceAllChar c rep rest

/-- JavaScript `Array.prototype.join` with a newline separator. -/
def joinNl (xs : List Str) : Str := List.intercalate [nlChar] xs

/-- A filesystem path in normalized form: its list of segments. -/
abbrev OutPath := List Str

/-- Node path normalization on a segment list: empty and `.` segments are
dropped and `..` pops the previous segment (the repository never produces
a leading `..`, so the relative-path corner of Node's behaviour is not
exercised). -/
def normSegs (segs : List Str) : List Str :=
  segs.foldl
    (fun acc seg =>
      if seg = [] ∨ seg = [dotChar] then acc
      else if seg = [dotChar, dotChar] then acc.dropLast
      else acc ++ [seg]) []

/-- Node `path.join(a, b)`: concatenate with a separator, then normalize. -/
def pathJoin (a b : Str) : OutPath :=
  normSegs (splitOnChar slashChar (a ++ [slashChar] ++ b))

/-- Last path segment of a name (Node `path.parse` works on the basename). -/
def basenameOf (s : Str) : Str := (splitOnChar slashChar s).getLastD []

/-- Node `path.parse(x).name` extension stripping on a basename: cut at the
last dot unless that dot is the first character (dotfile rule). -/
def stripExt (b : Str) : Str :=
  match b.reverse.findIdx? (fun c => decide (c = dotChar)) with
  | none => b
  | some i =>
    let k := b.length - 1 - i
    if k = 0 then b else b.take k

/-- Node `path.parse(originalFileName).name` as used in `saveFile`. -/
def parseName (s : Str) : Str := stripExt (basenameOf s)

/-- The suffix appended to the base name in `saveFile`. -/
def convertedSuffix : Str := ("-converted.txt").toList

/-- The output path computed by `saveFile`:
`path.join(outputDir, baseName + '-converted.txt')`. -/
def outputPathFor (originalFileName outputDir : Str) : OutPath :=
  pathJoin outputDir (parseName originalFileName ++ convertedSuffix)

/-- MIME type string for PDF files (`application/pdf`). -/
def mtPdf : Str := ("application/pdf").toList

/-- MIME type string for native Google documents. -/
def mtDocument : Str := ("application/vnd.google-apps.document").toList

/-- MIME type string for native Google spreadsheets. -/
def mtSpreadsheet : Str := ("application/vnd.google-apps.spreadsheet").toList

/-- MIME type string for native Google presentations. -/
def mtSlides : Str := ("application/vnd.google-apps.presentation").toList

/-- MIME type string for OpenXML word-processing documents. -/
def mtWord : Str :=
  ("application/vnd.openxmlformats-officedocument.wordprocessingml.document").toList

/-- MIME type string for plain text files. -/
def mtText : Str := ("text/plain").toList

/-- A file reference as returned by the Drive listing: id, display name and
declared MIME type.  Ids are modelled as naturals. -/
structure DriveFile where
  id : Nat
  name : Str
  mimeType : Str
deriving DecidableEq

/-- The set of supported MIME types built in `main`
(`const fileTypes = new Set([...])`). -/
def fileTypes : List Str :=
  [mtPdf, mtDocument, mtSpreadsheet, mtSlides, mtWord, mtText]

/-- The six format extractors of the read-text module. -/
inductive Extractor
  | pdf
  | document
  | spreadsheet
  | slides
  | wordDoc
  | plainText
deriving DecidableEq

/-- The dispatch performed by the `switch (mimeType)` statement in
`extractText`: each supported MIME type selects its extractor, anything
else falls to the `default` branch (modelled as `none`, which the caller
turns into the `Unsupported file type` exception). -/
def selectExtractor (mimeType : Str) : Option Extractor :=
  if mimeType = mtPdf then some Extractor.pdf
  else if mimeType = mtDocument then some Extractor.document
  else if mimeType = mtSpreadsheet then some Extractor.spreadsheet
  else if mimeType = mtSlides then some Extractor.slides
  else if mimeType = mtWord then some Extractor.wordDoc
  else if mimeType = mtText then some Extractor.plainText
  else none

/-- Per-file action of the loop in `main`: a supported file is dispatched
to `extractText`, any other file is skipped with a diagnostic. -/
inductive MainAction
  | dispatched
  | skipped
deriving DecidableEq

/-- The branch taken by `main` for one file:
`fileTypes.has(file.mimeType)` decides dispatch versus skip. -/
def mainAction (f : DriveFile) : MainAction :=
  if f.mimeType ∈ fileTypes then MainAction.dispatched else MainAction.skipped

/-- A call to the remote content API, as issued by the extractors: either
`drive.files.get` (raw media download) or `drive.files.export`
(format conversion), with the request parameters the source passes. -/
inductive FetchCall
  | get (alt : Option Str) (responseType : Option Str)
  | export (mimeType : Option Str) (alt : Option Str) (responseType : Option Str)
deriving DecidableEq

/-- The string `media` passed as the `alt` request parameter. -/
def altMedia : Str := ("media").toList

/-- The string `arraybuffer` passed as the `responseType` option. -/
def rtArrayBuffer : Str := ("arraybuffer").toList

/-- The string `text` passed as the `responseType` option. -/
def rtText : Str := ("text").toList

/-- MIME type string for CSV export (`text/csv`). -/
def mtCsv : Str := ("text/csv").toList

/-- The content-API call each extractor issues, read off the source:
`extractPDFText` and `extractPlainText` use `drive.files.get` with
`alt: media`; `extractDocumentText`, `extractSpreadsheetText` and
`extractPresentationText` use `drive.files.export` with a target MIME
type; `extractWordDoc` uses `drive.files.export` with `alt: media`, an
`arraybuffer` response type and no target MIME type. -/
def fetchCallOf : Extractor → FetchCall
  | Extractor.pdf => FetchCall.get (some altMedia) (some rtArrayBuffer)
  | Extractor.document => FetchCall.export (some mtText) none none
  | Extractor.spreadsheet => FetchCall.export (some mtCsv) none none
  | Extractor.slides => FetchCall.export (some mtText) none none
  | Extractor.wordDoc => FetchCall.export none (some altMedia) (some rtArrayBuffer)
  | Extractor.plainText => FetchCall.get (some altMedia) (some rtText)

/-- Whether a content-API call is a raw media download (`drive.files.get`). -/
def FetchCall.isGet : FetchCall → Bool
  | FetchCall.get _ _ => true
  | FetchCall.export _ _ _ => false

/-- A provider response handed to `handleArrayBuffer`: whether
`response.data instanceof ArrayBuffer` holds, whether
`response.data.arrayBuffer` is present (truthy), the bytes
`Buffer.from(response.data)` would yield directly, and the bytes the
asynchronous `response.data.arrayBuffer()` call would collect. -/
structure JsResponse where
  isArrayBuffer : Bool
  hasArrayBufferMethod : Bool
  dataBytes : List Nat
  collected : List Nat
deriving DecidableEq

/-- Result of buffer normalization: the produced bytes, together with
whether the asynchronous collect-all-bytes operation was invoked. -/
structure BufferResult where
  bytes : List Nat
  collectInvoked : Bool
deriving DecidableEq

/-- The response-body normalizer `handleArrayBuffer`: first probe
`instanceof ArrayBuffer`, then the `arrayBuffer` method, else wrap the
value as bytes directly. -/
def handleArrayBuffer (r : JsResponse) : BufferResult :=
  if r.isArrayBuffer then { bytes := r.dataBytes, collectInvoked := false }
  else if r.hasArrayBufferMethod then { bytes := r.collected, collectInvoked := true }
  else { bytes := r.dataBytes, collectInvoked := false }

/-- Events of `main`'s execution on the JavaScript event loop. -/
inductive Ev
  | dispatch (id : Nat)
  | skip (id : Nat)
  | mainResolved
  | settle (id : Nat)
deriving DecidableEq

/-- Event trace of `main` over a file list.  The `forEach` body calls
`extractText(drive, file.id)` without `await`; the called async function
suspends at its first awaited network fetch, so `main`'s synchronous loop
runs to completion and its promise resolves before any dispatched
extraction settles.  The trace records exactly this linearization: all
dispatch slash skip events, then `main`'s resolution, then the settlement
of each dispatched extraction. -/
def mainTrace (files : List DriveFile) : List Ev :=
  (files.map fun f =>
    if f.mimeType ∈ fileTypes then Ev.dispatch f.id else Ev.skip f.id)
  ++ [Ev.mainResolved]
  ++ ((files.filter fun f => decide (f.mimeType ∈ fileTypes)).map
      fun f => Ev.settle f.id)

/-- Whether, in trace `tr`, the settlement of extraction `id` occurs
strictly before `main`'s resolution. -/
def settledBeforeResolved (tr : List Ev) (id : Nat) : Bool :=
  match tr.findIdx? (fun e => decide (e = Ev.settle id)),
        tr.findIdx? (fun e => decide (e = Ev.mainResolved)) with
  | some si, some ri => decide (si < ri)
  | _, _ => false

/-- The completion-tracking property claimed of `main`: every dispatched
extraction settles before the run is reported finished. -/
def mainAwaitsAll (files : List DriveFile) : Prop :=
  ∀ id, Ev.dispatch id ∈ mainTrace files →
    settledBeforeResolved (mainTrace files) id = true

/-- The error taxonomy of the spec: unsupported format, fetch failure,
decode failure, write failure. -/
inductive Failure
  | unsupportedFormat
  | fetchFailure
  | decodeFailure
  | writeFailure
deriving DecidableEq

/-- Console output of the extraction subsystem, one constructor per
`console.log` slash `console.error` line in the source. -/
inductive Log
  | skipping (name : Str)
  | noFilesFound
  | extracting (name : Str)
  | extractedCount (n : Nat)
  | createdOutputDir
  | savedTo (p : OutPath)
  | saveError
  | errorExtracting (e : Failure)
deriving DecidableEq

/-- Environment modelling the external collaborators: per file id, whether
the metadata fetch, the content fetch and the binary decode succeed;
whether filesystem writes succeed; and the text content the successful
fetch slash decode chain yields for the file (`fileText` abstracts the
payload carried through `handleArrayBuffer` and the parsers). -/
structure Env where
  metaOk : Nat → Bool
  contentOk : Nat → Bool
  decodeOk : Nat → Bool
  writeOk : Bool
  fileText : Nat → Str

/-- The local filesystem: the set of existing directories (by their
un-normalized directory string, as probed by `fs.existsSync`) and the
files, keyed by normalized output path. -/
structure FS where
  dirs : List Str
  files : List (OutPath × Str)

/-- Content of the file at path `p`, if present (first match wins). -/
def lookupFile : List (OutPath × Str) → OutPath → Option Str
  | [], _ => none
  | e :: rest, p => if e.1 = p then some e.2 else lookupFile rest p

/-- Semantics of `fs.writeFileSync`: the file at `p` now has content `t`
and no other entry for `p` remains. -/
def overwrite (l : List (OutPath × Str)) (p : OutPath) (t : Str) :
    List (OutPath × Str) :=
  l.filter (fun e => !decide (e.1 = p)) ++ [(p, t)]

/-- The `saveFile` function: create the output directory if missing
(`fs.existsSync` slash `fs.mkdirSync recursive`), derive the output path
from the base name, write the text (overwriting), and log; any write
error is caught inside `saveFile` itself and only logged. -/
def saveFile (env : Env) (fs : FS) (text originalFileName outputDir : Str) :
    FS × List Log :=
  let dlog : List Log :=
    if outputDir ∈ fs.dirs then [] else [Log.createdOutputDir]
  let dirs1 : List Str :=
    if outputDir ∈ fs.dirs then fs.dirs else outputDir :: fs.dirs
  if env.writeOk then
    let p := outputPathFor originalFileName outputDir
    ({ dirs := dirs1, files := overwrite fs.files p text },
      dlog ++ [Log.savedTo p])
  else ({ dirs := dirs1, files := fs.files }, dlog ++ [Log.saveError])

/-- Output directory literal of `extractPDFText`. -/
def pdfDir : Str := ("./saved-outputs/pdf").toList

/-- Output directory literal of `extractDocumentText`. -/
def documentDir : Str := ("./saved-outputs/document").toList

/-- Output directory literal of `extractSpreadsheetText`. -/
def spreadsheetDir : Str := ("./saved-outputs/spreadsheet").toList

/-- Output directory literal of `extractPresentationText`. -/
def slidesDir : Str := ("./saved-outputs/presentation").toList

/-- Output directory literal of `extractWordDoc`. -/
def wordDocDir : Str := ("./saved-outputs/word-doc").toList

/-- Output directory literal of `extractPlainText`. -/
def plainTextDir : Str := ("./saved-outputs/plain-text").toList

/-- Output directory used by each extractor, read off the `saveFile`
calls in the source. -/
def outputDirOf : Extractor → Str
  | Extractor.pdf => pdfDir
  | Extractor.document => documentDir
  | Extractor.spreadsheet => spreadsheetDir
  | Extractor.slides => slidesDir
  | Extractor.wordDoc => wordDocDir
  | Extractor.plainText => plainTextDir

/-- The `extractPDFText` function: media download, buffer normalization,
`pdf-parse`, save, return the parsed text.  A failed fetch raises
`FetchFailure`, a failed parse raises `DecodeFailure`; both propagate to
the caller (`extractText`). -/
def extractPDFText (env : Env) (fs : FS) (fileId : Nat) (fileName : Str) :
    Except Failure Str × FS × List Log :=
  if env.contentOk fileId then
    if env.decodeOk fileId then
      let text := env.fileText fileId
      let r := saveFile env fs text fileName pdfDir
      (Except.ok text, r.1, Log.extracting fileName :: r.2)
    else (Except.error Failure.decodeFailure, fs, [Log.extracting fileName])
  else (Except.error Failure.fetchFailure, fs, [Log.extracting fileName])

/-- The `extractDocumentText` function: `text/plain` export, log the
character count, save, return the export body unchanged. -/
def extractDocumentText (env : Env) (fs : FS) (fileId : Nat) (fileName : Str) :
    Except Failure Str × FS × List Log :=
  if env.contentOk fileId then
    let text := env.fileText fileId
    let r := saveFile env fs text fileName documentDir
    (Except.ok text, r.1,
      Log.extracting fileName :: Log.extractedCount text.length :: r.2)
  else (Except.error Failure.fetchFailure, fs, [Log.extracting fileName])

/-- The transformation `extractSpreadsheetText` applies to the CSV export
body: split into lines, keep only lines whose `trim()` is truthy, replace
every comma by the delimiter, rejoin with newlines. -/
def formatCsv (csvText : Str) : Str :=
  joinNl (((splitOnChar nlChar csvText).filter
      (fun line => decide (trimStr line ≠ []))).map
    (replaceAllChar commaChar ((" | ").toList)))

/-- The `extractSpreadsheetText` function: `text/csv` export, the
`formatCsv` transformation, save, return the formatted text. -/
def extractSpreadsheetText (env : Env) (fs : FS) (fileId : Nat) (fileName : Str) :
    Except Failure Str × FS × List Log :=
  if env.contentOk fileId then
    let formattedText := formatCsv (env.fileText fileId)
    let r := saveFile env fs formattedText fileName spreadsheetDir
    (Except.ok formattedText, r.1, Log.extracting fileName :: r.2)
  else (Except.error Failure.fetchFailure, fs, [Log.extracting fileName])

/-- The `extractPresentationText` function: `text/plain` export, save,
return the export body unchanged. -/
def extractPresentationText (env : Env) (fs : FS) (fileId : Nat) (fileName : Str) :
    Except Failure Str × FS × List Log :=
  if env.contentOk fileId then
    let text := env.fileText fileId
    let r := saveFile env fs text fileName slidesDir
    (Except.ok text, r.1, Log.extracting fileName :: r.2)
  else (Except.error Failure.fetchFailure, fs, [Log.extracting fileName])

/-- The `extractWordDoc` function: content fetch (see `fetchCallOf` for
the call it actually issues), buffer normalization, `mammoth`
conversion, save, return the converted text. -/
def extractWordDoc (env : Env) (fs : FS) (fileId : Nat) (fileName : Str) :
    Except Failure Str × FS × List Log :=
  if env.contentOk fileId then
    if env.decodeOk fileId then
      let text := env.fileText fileId
      let r := saveFile env fs text fileName wordDocDir
      (Except.ok text, r.1, Log.extracting fileName :: r.2)
    else (Except.error Failure.decodeFailure, fs, [Log.extracting fileName])
  else (Except.error Failure.fetchFailure, fs, [Log.extracting fileName])

/-- The `extractPlainText` function: media download with text response,
save, return the body. -/
def extractPlainText (env : Env) (fs : FS) (fileId : Nat) (fileName : Str) :
    Except Failure Str × FS × List Log :=
  if env.contentOk fileId then
    let text := env.fileText fileId
    let r := saveFile env fs text fileName plainTextDir
    (Except.ok text, r.1, Log.extracting fileName :: r.2)
  else (Except.error Failure.fetchFailure, fs, [Log.extracting fileName])

/-- Body of the `try` block of `extractText`: fetch metadata (name and
MIME type of the file), then dispatch through the `switch` on the MIME
type; the `default` branch raises the `Unsupported file type` error. -/
def extractTextTry (env : Env) (fs : FS) (f : DriveFile) :
    Except Failure Str × FS × List Log :=
  if env.metaOk f.id then
    match selectExtractor f.mimeType with
    | some Extractor.pdf => extractPDFText env fs f.id f.name
    | some Extractor.document => extractDocumentText env fs f.id f.name
    | some Extractor.spreadsheet => extractSpreadsheetText env fs f.id f.name
    | some Extractor.slides => extractPresentationText env fs f.id f.name
    | some Extractor.wordDoc => extractWordDoc env fs f.id f.name
    | some Extractor.plainText => extractPlainText env fs f.id f.name
    | none => (Except.error Failure.unsupportedFormat, fs, [])
  else (Except.error Failure.fetchFailure, fs, [])

/-- The `extractText` function: the `try` body wrapped by the `catch`
that logs the error and lets the async function resolve with `undefined`
(modelled as `none`). -/
def extractText (env : Env) (fs : FS) (f : DriveFile) :
    Option Str × FS × List Log :=
  match extractTextTry env fs f with
  | (Except.ok t, fs2, lg) => (some t, fs2, lg)
  | (Except.error e, fs2, lg) => (none, fs2, lg ++ [Log.errorExtracting e])

/-- One iteration of the `forEach` loop in `main`: a supported file is
handed to `extractText`, any other is skipped with a diagnostic. -/
def processFile (env : Env) (acc : FS × List Log) (f : DriveFile) :
    FS × List Log :=
  if f.mimeType ∈ fileTypes then
    let r := extractText env acc.1 f
    (r.2.1, acc.2 ++ r.2.2)
  else (acc.1, acc.2 ++ [Log.skipping f.name])

/-- The batch loop of `main` over the listed files (linearized: the
per-file work is independent, and `extractText` never rejects, so the
`forEach` processes every file in order regardless of failures). -/
def mainRun (env : Env) (fs : FS) (files : List DriveFile) : FS × List Log :=
  if files.length ≠ 0 then files.foldl (processFile env) (fs, [])
  else (fs, [Log.noFilesFound])

/-- The artifact path a file would be written to, when its MIME type is
supported: the extractor's output directory joined with the stripped base
name plus the converted suffix. -/
def artifactPathOf (f : DriveFile) : Option OutPath :=
  (selectExtractor f.mimeType).map
    (fun e => outputPathFor f.name (outputDirOf e))

/-- All three remote slash decode stages succeed for file `f` in `env`. -/
def stagesOk (env : Env) (f : DriveFile) : Prop :=
  env.metaOk f.id = true ∧ env.contentOk f.id = true ∧ env.decodeOk f.id = true

/-- The spreadsheet normalization exactly as the spec words it: split the
body into lines, remove every whitespace-only line, replace every comma
in each remaining line with the delimiter, rejoin with newlines. -/
def specNormalizeCsv (s : Str) : Str :=
  joinNl (((splitOnChar nlChar s).filter
      (fun line => !line.all Char.isWhitespace)).map
    (replaceAllChar commaChar ((" | ").toList)))

/-- Category directory name of each extractor, as the spec's table lists
them. -/
def categoryOf : Extractor → Str
  | Extractor.pdf => ("pdf").toList
  | Extractor.document => ("document").toList
  | Extractor.spreadsheet => ("spreadsheet").toList
  | Extractor.slides => ("presentation").toList
  | Extractor.wordDoc => ("word-doc").toList
  | Extractor.plainText => ("plain-text").toList

/-- Modelled from the spec: the artifact path the spec promises, written
as the string `./saved-outputs/<category>/<base-name>-converted.txt`. -/
def specArtifactStr (cat name : Str) : Str :=
  ("./saved-outputs/").toList ++ cat ++ [slashChar] ++ parseName name
    ++ convertedSuffix

/-- The empty starting filesystem. -/
def fs0 : FS := { dirs := [], files := [] }

/-- An environment in which every stage of every file succeeds. -/
def envAllOk : Env :=
  { metaOk := fun _ => true
    contentOk := fun _ => true
    decodeOk := fun _ => true
    writeOk := true
    fileText := fun _ => ("hello").toList }

/-- An environment in which only the decode of file `0` fails. -/
def envDecodeFail0 : Env :=
  { envAllOk with decodeOk := fun id => decide (id ≠ 0) }

/-- An environment in which only filesystem writes fail. -/
def envNoWrite : Env := { envAllOk with writeOk := false }

/-- An environment in which every metadata fetch fails. -/
def envMetaFail : Env := { envAllOk with metaOk := fun _ => false }

/-- A PDF file with id `0`. -/
def filePdf0 : DriveFile := ⟨0, ("a.pdf").toList, mtPdf⟩

/-- A plain text file with id `1`. -/
def fileTxt1 : DriveFile := ⟨1, ("b.txt").toList, mtText⟩

/-- A string trims to empty exactly when all its characters are
whitespace (relates the source's `line.trim()` blank test to the spec's
whitespace-only wording). -/
theorem trimStr_eq_nil_iff (l : Str) :
    trimStr l = [] ↔ l.all Char.isWhitespace = true := by
  unfold trimStr
  rw [List.reverse_eq_nil_iff, List.dropWhile_eq_nil_iff, List.all_eq_true]
  constructor
  · intro h x hx
    rcases (List.mem_append.mp
        ((List.takeWhile_append_dropWhile
          (p := Char.isWhitespace) (l := l)) ▸ hx)) with h1 | h1
    · exact List.mem_takeWhile_imp h1
    · exact h x (List.mem_reverse.mpr h1)
  · intro h x hx
    exact h x
      ((List.dropWhile_sublist (l := l) Char.isWhitespace).mem
        (List.mem_reverse.mp hx))

/-- A supported MIME type is dispatched by the switch to some extractor. -/
theorem selectExtractor_of_mem {mt : Str} (h : mt ∈ fileTypes) :
    ∃ e, selectExtractor mt = some e := by
  simp only [fileTypes, List.mem_cons, List.not_mem_nil, or_false] at h
  rcases h with h | h | h | h | h | h <;> rw [h] <;> exact ⟨_, rfl⟩

/-- An unsupported MIME type falls to the default branch of the switch. -/
theorem selectExtractor_eq_none_of_not_mem {mt : Str} (h : mt ∉ fileTypes) :
    selectExtractor mt = none := by
  unfold selectExtractor
  split_ifs with h1 h2 h3 h4 h5 h6
  · exact absurd (by rw [h1]; decide) h
  · exact absurd (by rw [h2]; decide) h
  · exact absurd (by rw [h3]; decide) h
  · exact absurd (by rw [h4]; decide) h
  · exact absurd (by rw [h5]; decide) h
  · exact absurd (by rw [h6]; decide) h
  · rfl

/-- C1: the claim states that `main` resolves only after every dispatched
extraction has settled.  The code dispatches `extractText` inside
`forEach` without awaiting it, so on a batch containing a single
supported PDF file the trace resolves `main` strictly before the
extraction settles; the claim is false of the code (the spec itself
flags this fire-and-forget dispatch as a bug of the source). -/
theorem c1_fire_and_forget :
    mainTrace [filePdf0] = [Ev.dispatch 0, Ev.mainResolved, Ev.settle 0]
    ∧ ¬ mainAwaitsAll [filePdf0] := by
  constructor
  · decide
  · intro h
    have h0 := h 0 (by decide)
    exact absurd h0 (by decide)

/-- C2: for an OpenXML word-processing file the code does not issue a raw
media download: `extractWordDoc` calls `drive.files.export` (with
`alt: media` and no target MIME type) rather than `drive.files.get`, so
the fetch is an export call, contradicting the claimed (and clearly
intended) media download. -/
theorem c2_word_fetch_is_export :
    selectExtractor mtWord = some Extractor.wordDoc
    ∧ fetchCallOf Extractor.wordDoc
        = FetchCall.export none (some altMedia) (some rtArrayBuffer)
    ∧ (fetchCallOf Extractor.wordDoc).isGet = false
    ∧ (∀ a r, fetchCallOf Extractor.wordDoc ≠ FetchCall.get a r) := by
  refine ⟨by decide, rfl, rfl, ?_⟩
  intro a r h
  exact FetchCall.noConfusion h

/-- C3: the spreadsheet transformation splits the export body into lines,
drops every whitespace-only line, replaces each comma by the delimiter
and rejoins with newlines; the worked example of the spec evaluates as
claimed. -/
theorem c3_spreadsheet_normalization :
    (∀ s : Str, formatCsv s = specNormalizeCsv s)
    ∧ formatCsv ("a,b,c\n\n1,2,3\n").toList = ("a | b | c\n1 | 2 | 3").toList := by
  refine ⟨?_, by decide⟩
  intro s
  unfold formatCsv specNormalizeCsv
  congr 1
  congr 1
  apply List.filter_congr
  intro l _
  by_cases h : trimStr l = []
  · have hall : l.all Char.isWhitespace = true := (trimStr_eq_nil_iff l).mp h
    simp [h, hall]
  · have hall : l.all Char.isWhitespace = false := by
      rcases Bool.eq_false_or_eq_true (l.all Char.isWhitespace) with ht | hf
      · exact absurd ((trimStr_eq_nil_iff l).mpr ht) h
      · exact hf
    simp [h, hall]

/-- C4: each of the six supported MIME types is dispatched to exactly its
own extractor; every supported file is dispatched by `main`; every file
of unsupported type is skipped by `main` and falls to the default branch
of the switch, so no extractor runs for it. -/
theorem c4_dispatch :
    (selectExtractor mtPdf = some Extractor.pdf
      ∧ selectExtractor mtDocument = some Extractor.document
      ∧ selectExtractor mtSpreadsheet = some Extractor.spreadsheet
      ∧ selectExtractor mtSlides = some Extractor.slides
      ∧ selectExtractor mtWord = some Extractor.wordDoc
      ∧ selectExtractor mtText = some Extractor.plainText)
    ∧ (∀ f : DriveFile, f.mimeType ∈ fileTypes →
        mainAction f = MainAction.dispatched
          ∧ ∃ e, selectExtractor f.mimeType = some e)
    ∧ (∀ f : DriveFile, f.mimeType ∉ fileTypes →
        mainAction f = MainAction.skipped
          ∧ selectExtractor f.mimeType = none) := by
  refine ⟨by decide, ?_, ?_⟩
  · intro f h
    exact ⟨by simp [mainAction, h], selectExtractor_of_mem h⟩
  · intro f h
    exact ⟨by simp [mainAction, h], selectExtractor_eq_none_of_not_mem h⟩

/-- Witness for C4 at concrete inputs: an `image/png` file is skipped and
no extractor is selected for it. -/
theorem c4_dispatch_witness :
    mainAction ⟨7, ("pic.png").toList, ("image/png").toList⟩ = MainAction.skipped
    ∧ selectExtractor ("image/png").toList = none :=
  c4_dispatch.2.2 ⟨7, ("pic.png").toList, ("image/png").toList⟩ (by decide)

/-- C5: the artifact path is deterministic in the category and the source
file name: for every extractor and file name it equals the normalization
of `./saved-outputs/<category>/<base-name>-converted.txt`, and the
spec's example `Report.docx` of the word category lands at
`saved-outputs/word-doc/Report-converted.txt`. -/
theorem c5_output_path :
    (∀ (name : Str) (e : Extractor),
      outputPathFor name (outputDirOf e)
        = normSegs (splitOnChar slashChar (specArtifactStr (categoryOf e) name)))
    ∧ outputPathFor ("Report.docx").toList wordDocDir
        = normSegs (splitOnChar slashChar
            (("./saved-outputs/word-doc/Report-converted.txt").toList))
    ∧ outputPathFor ("Report.docx").toList wordDocDir
        = [("saved-outputs").toList, ("word-doc").toList,
            ("Report-converted.txt").toList]
    ∧ parseName ("Report.docx").toList = ("Report").toList := by
  refine ⟨?_, by decide, by decide, by decide⟩
  intro name e
  cases e <;> rfl

/-- C7: the export calls request `text/plain` for native documents and
presentations and `text/csv` for native spreadsheets. -/
theorem c7_export_targets :
    fetchCallOf Extractor.document = FetchCall.export (some mtText) none none
    ∧ fetchCallOf Extractor.spreadsheet = FetchCall.export (some mtCsv) none none
    ∧ fetchCallOf Extractor.slides = FetchCall.export (some mtText) none none
    ∧ mtText = ("text/plain").toList
    ∧ mtCsv = ("text/csv").toList :=
  ⟨rfl, rfl, rfl, rfl, rfl⟩

/-- C8: the normalizer probes the response body shapes in the fixed order
binary sequence, collect-method, fallback; the first matching shape wins
and the collect operation is invoked only in the second case. -/
theorem c8_buffer_probe_order (r : JsResponse) :
    (r.isArrayBuffer = true →
      handleArrayBuffer r = { bytes := r.dataBytes, collectInvoked := false })
    ∧ (r.isArrayBuffer = false → r.hasArrayBufferMethod = true →
      handleArrayBuffer r = { bytes := r.collected, collectInvoked := true })
    ∧ (r.isArrayBuffer = false → r.hasArrayBufferMethod = false →
      handleArrayBuffer r = { bytes := r.dataBytes, collectInvoked := false }) := by
  refine ⟨fun h1 => ?_, fun h1 h2 => ?_, fun h1 h2 => ?_⟩ <;>
    simp [handleArrayBuffer, h1, *]

/-- Witness for C8 at a concrete response exposing only the collect
method: the collected bytes are returned and the collect was invoked. -/
theorem c8_buffer_probe_order_witness :
    handleArrayBuffer
        { isArrayBuffer := false, hasArrayBufferMethod := true,
          dataBytes := [1], collected := [2, 3] }
      = { bytes := [2, 3], collectInvoked := true } :=
  (c8_buffer_probe_order _).2.1 rfl rfl

/-- Looking up in an overwritten file list: the written path now maps to
the new text, every other path is untouched. -/
theorem lookupFile_overwrite (p q : OutPath) (t : Str) :
    ∀ l : List (OutPath × Str),
      lookupFile (overwrite l p t) q = if q = p then some t else lookupFile l q := by
  intro l
  induction l with
  | nil =>
    simp only [overwrite, List.filter_nil, List.nil_append, lookupFile]
    by_cases h : q = p
    · subst h; simp
    · rw [if_neg (fun hh => h hh.symm), if_neg h]
  | cons e rest ih =>
    by_cases he : e.1 = p
    · have hf : overwrite (e :: rest) p t = overwrite rest p t := by
        unfold overwrite
        rw [List.filter_cons_of_neg]
        simp [he]
      rw [hf, ih]
      by_cases h : q = p
      · rw [if_pos h, if_pos h]
      · rw [if_neg h, if_neg h]
        have hne : e.1 ≠ q := fun hh => h (by rw [← hh, he])
        simp only [lookupFile, if_neg hne]
    · have hf : overwrite (e :: rest) p t = e :: overwrite rest p t := by
        unfold overwrite
        rw [List.filter_cons_of_pos]
        · rfl
        · simp [he]
      rw [hf]
      simp only [lookupFile]
      by_cases hq : e.1 = q
      · have hqp : q ≠ p := fun hh => he (by rw [hq, hh])
        rw [if_pos hq, if_neg hqp, if_pos hq]
      · rw [if_neg hq, ih]
        by_cases h : q = p
        · rw [if_pos h, if_pos h]
        · rw [if_neg h, if_neg h, if_neg hq]

/-- After an overwrite exactly one entry for the written path exists. -/
theorem countP_overwrite (l : List (OutPath × Str)) (p : OutPath) (t : Str) :
    (overwrite l p t).countP (fun e => decide (e.1 = p)) = 1 := by
  unfold overwrite
  rw [List.countP_append]
  have h1 : (l.filter (fun e => !decide (e.1 = p))).countP
      (fun e => decide (e.1 = p)) = 0 := by
    induction l with
    | nil => simp
    | cons e rest ih =>
      by_cases he : e.1 = p
      · simp [List.filter_cons, he, ih]
      · simp [List.filter_cons, he, List.countP_cons, ih]
  rw [h1]
  simp [List.countP_cons]

/-- Overwriting twice with the same path and text is one overwrite. -/
theorem overwrite_overwrite (l : List (OutPath × Str)) (p : OutPath) (t : Str) :
    overwrite (overwrite l p t) p t = overwrite l p t := by
  unfold overwrite
  rw [List.filter_append]
  have h2 : List.filter (fun e => !decide (e.1 = p)) [(p, t)] = [] := by simp
  have h1 : (l.filter (fun e => !decide (e.1 = p))).filter
      (fun e => !decide (e.1 = p)) = l.filter (fun e => !decide (e.1 = p)) := by
    rw [List.filter_filter]
    simp [Bool.and_self]
  rw [h1, h2, List.append_nil]

/-- Two filesystem states with the same directories and files are equal. -/
theorem FS.ext' {a b : FS} (h1 : a.dirs = b.dirs) (h2 : a.files = b.files) :
    a = b := by
  cases a; cases b; simp_all

/-- The files after `saveFile`: an overwrite at the computed output path
when writes succeed, untouched otherwise. -/
theorem saveFile_files (env : Env) (fs : FS) (text nm dir : Str) :
    ((saveFile env fs text nm dir).1).files
      = if env.writeOk then overwrite fs.files (outputPathFor nm dir) text
        else fs.files := by
  unfold saveFile
  by_cases hd : dir ∈ fs.dirs <;> by_cases hw : env.writeOk <;> simp [hd, hw]

/-- The directories after `saveFile`: the output directory is created
exactly when missing, whether or not the write itself succeeds. -/
theorem saveFile_dirs (env : Env) (fs : FS) (text nm dir : Str) :
    ((saveFile env fs text nm dir).1).dirs
      = if dir ∈ fs.dirs then fs.dirs else dir :: fs.dirs := by
  unfold saveFile
  by_cases hd : dir ∈ fs.dirs <;> by_cases hw : env.writeOk <;> simp [hd, hw]

/-- C9: writing an artifact is idempotent.  With succeeding writes, a
second `saveFile` with unchanged inputs leaves the filesystem exactly as
the first left it; the artifact sits at the deterministic output path
with the written text, exactly one entry for that path exists (full
overwrite, no append, no versioning, no duplicate), and the destination
directory exists afterwards whether or not it existed before. -/
theorem c9_save_idempotent (env : Env) (fs : FS) (text nm dir : Str)
    (hw : env.writeOk = true) :
    (saveFile env (saveFile env fs text nm dir).1 text nm dir).1
        = (saveFile env fs text nm dir).1
    ∧ lookupFile ((saveFile env fs text nm dir).1).files (outputPathFor nm dir)
        = some text
    ∧ ((saveFile env fs text nm dir).1).files.countP
        (fun e => decide (e.1 = outputPathFor nm dir)) = 1
    ∧ dir ∈ ((saveFile env fs text nm dir).1).dirs := by
  have hfiles := saveFile_files env fs text nm dir
  have hdirs := saveFile_dirs env fs text nm dir
  rw [hw] at hfiles
  simp only [if_true] at hfiles
  have hmem : dir ∈ ((saveFile env fs text nm dir).1).dirs := by
    rw [hdirs]
    by_cases hd : dir ∈ fs.dirs
    · rw [if_pos hd]; exact hd
    · rw [if_neg hd]; exact List.mem_cons_self dir fs.dirs
  refine ⟨?_, ?_, ?_, hmem⟩
  · have h2files := saveFile_files env (saveFile env fs text nm dir).1 text nm dir
    have h2dirs := saveFile_dirs env (saveFile env fs text nm dir).1 text nm dir
    rw [hw] at h2files
    simp only [if_true] at h2files
    apply FS.ext'
    · rw [h2dirs, if_pos hmem]
    · rw [h2files, hfiles, overwrite_overwrite]
  · rw [hfiles, lookupFile_overwrite, if_pos rfl]
  · rw [hfiles]
    exact countP_overwrite fs.files (outputPathFor nm dir) text

/-- Witness for C9 at a concrete write into the empty filesystem. -/
theorem c9_save_idempotent_witness :
    lookupFile ((saveFile envAllOk fs0 (("hi").toList) (("a.txt").toList)
          pdfDir).1).files
        (outputPathFor (("a.txt").toList) pdfDir) = some (("hi").toList) :=
  (c9_save_idempotent envAllOk fs0 (("hi").toList) (("a.txt").toList)
    pdfDir rfl).2.1

/-- A path present before `saveFile` is still present after it. -/
theorem saveFile_presence (env : Env) (fs : FS) (text nm dir : Str) (q : OutPath)
    (h : lookupFile fs.files q ≠ none) :
    lookupFile ((saveFile env fs text nm dir).1).files q ≠ none := by
  rw [saveFile_files]
  by_cases hw : env.writeOk = true
  · rw [if_pos hw, lookupFile_overwrite]
    by_cases hq : q = outputPathFor nm dir
    · rw [if_pos hq]; simp
    · rw [if_neg hq]; exact h
  · rw [if_neg hw]; exact h

/-- When a write fails, `saveFile` records the error in its log. -/
theorem saveFile_saveError (env : Env) (fs : FS) (text nm dir : Str)
    (hw : env.writeOk = false) :
    Log.saveError ∈ (saveFile env fs text nm dir).2 := by
  unfold saveFile
  rw [hw]
  by_cases hd : dir ∈ fs.dirs <;> simp [hd]

/-- A path present before `extractPDFText` is still present after it. -/
theorem extractPDFText_presence (env : Env) (fs : FS) (i : Nat) (nm : Str)
    (q : OutPath) (h : lookupFile fs.files q ≠ none) :
    lookupFile ((extractPDFText env fs i nm).2.1).files q ≠ none := by
  unfold extractPDFText
  split
  · split
    · exact saveFile_presence env fs _ nm pdfDir q h
    · simpa using h
  · simpa using h

/-- A path present before `extractDocumentText` is still present after it. -/
theorem extractDocumentText_presence (env : Env) (fs : FS) (i : Nat) (nm : Str)
    (q : OutPath) (h : lookupFile fs.files q ≠ none) :
    lookupFile ((extractDocumentText env fs i nm).2.1).files q ≠ none := by
  unfold extractDocumentText
  split
  · exact saveFile_presence env fs _ nm documentDir q h
  · simpa using h

/-- A path present before `extractSpreadsheetText` is still present after
it. -/
theorem extractSpreadsheetText_presence (env : Env) (fs : FS) (i : Nat) (nm : Str)
    (q : OutPath) (h : lookupFile fs.files q ≠ none) :
    lookupFile ((extractSpreadsheetText env fs i nm).2.1).files q ≠ none := by
  unfold extractSpreadsheetText
  split
  · exact saveFile_presence env fs _ nm spreadsheetDir q h
  · simpa using h

/-- A path present before `extractPresentationText` is still present after
it. -/
theorem extractPresentationText_presence (env : Env) (fs : FS) (i : Nat) (nm : Str)
    (q : OutPath) (h : lookupFile fs.files q ≠ none) :
    lookupFile ((extractPresentationText env fs i nm).2.1).files q ≠ none := by
  unfold extractPresentationText
  split
  · exact saveFile_presence env fs _ nm slidesDir q h
  · simpa using h

/-- A path present before `extractWordDoc` is still present after it. -/
theorem extractWordDoc_presence (env : Env) (fs : FS) (i : Nat) (nm : Str)
    (q : OutPath) (h : lookupFile fs.files q ≠ none) :
    lookupFile ((extractWordDoc env fs i nm).2.1).files q ≠ none := by
  unfold extractWordDoc
  split
  · split
    · exact saveFile_presence env fs _ nm wordDocDir q h
    · simpa using h
  · simpa using h

/-- A path present before `extractPlainText` is still present after it. -/
theorem extractPlainText_presence (env : Env) (fs : FS) (i : Nat) (nm : Str)
    (q : OutPath) (h : lookupFile fs.files q ≠ none) :
    lookupFile ((extractPlainText env fs i nm).2.1).files q ≠ none := by
  unfold extractPlainText
  split
  · exact saveFile_presence env fs _ nm plainTextDir q h
  · simpa using h

/-- A path present before the `try` body of `extractText` is still present
after it: the pipeline only ever adds or overwrites files. -/
theorem extractTextTry_presence (env : Env) (fs : FS) (f : DriveFile)
    (q : OutPath) (h : lookupFile fs.files q ≠ none) :
    lookupFile ((extractTextTry env fs f).2.1).files q ≠ none := by
  unfold extractTextTry
  split
  · split
    · exact extractPDFText_presence env fs f.id f.name q h
    · exact extractDocumentText_presence env fs f.id f.name q h
    · exact extractSpreadsheetText_presence env fs f.id f.name q h
    · exact extractPresentationText_presence env fs f.id f.name q h
    · exact extractWordDoc_presence env fs f.id f.name q h
    · exact extractPlainText_presence env fs f.id f.name q h
    · simpa using h
  · simpa using h

/-- A path present before `extractText` is still present after it. -/
theorem extractText_presence (env : Env) (fs : FS) (f : DriveFile)
    (q : OutPath) (h : lookupFile fs.files q ≠ none) :
    lookupFile ((extractText env fs f).2.1).files q ≠ none := by
  have ht := extractTextTry_presence env fs f q h
  unfold extractText
  rcases hE : extractTextTry env fs f with ⟨r, fs2, lg⟩
  rw [hE] at ht
  cases r <;> simpa using ht

/-- The `catch` of `extractText`: a pipeline error makes the function
resolve with `undefined` and log the error. -/
theorem extractText_catch (env : Env) (fs : FS) (f : DriveFile) (e : Failure)
    (h : (extractTextTry env fs f).1 = Except.error e) :
    (extractText env fs f).1 = none
      ∧ Log.errorExtracting e ∈ (extractText env fs f).2.2 := by
  unfold extractText
  rcases hE : extractTextTry env fs f with ⟨r, fs2, lg⟩
  rw [hE] at h
  dsimp only at h
  subst h
  simp

/-- Reduction of `extractText` once its `try` body has been computed to a
successful save-and-return shape. -/
theorem extractText_assembled (env : Env) (fs : FS) (f : DriveFile) (t : Str)
    (dir : Str) (L : List Log)
    (hTry : extractTextTry env fs f
        = (Except.ok t, (saveFile env fs t f.name dir).1,
            L ++ (saveFile env fs t f.name dir).2)) :
    extractText env fs f
      = (some t, (saveFile env fs t f.name dir).1,
          L ++ (saveFile env fs t f.name dir).2) := by
  unfold extractText
  rw [hTry]

/-- A supported file whose metadata fetch, content fetch and decode all
succeed drives `extractText` through a single `saveFile` at its
extractor's output directory and returns the extracted text. -/
theorem extractText_success (env : Env) (fs : FS) (f : DriveFile)
    (hmem : f.mimeType ∈ fileTypes) (hs : stagesOk env f) :
    ∃ t dir L, artifactPathOf f = some (outputPathFor f.name dir)
      ∧ extractText env fs f
          = (some t, (saveFile env fs t f.name dir).1,
              L ++ (saveFile env fs t f.name dir).2) := by
  obtain ⟨e, hsel⟩ := selectExtractor_of_mem hmem
  obtain ⟨hm, hc, hd⟩ := hs
  have hpath : artifactPathOf f = some (outputPathFor f.name (outputDirOf e)) := by
    simp [artifactPathOf, hsel]
  cases e
  case pdf =>
    refine ⟨env.fileText f.id, pdfDir, [Log.extracting f.name], hpath, ?_⟩
    apply extractText_assembled
    simp [extractTextTry, hm, hsel, extractPDFText, hc, hd]
  case document =>
    refine ⟨env.fileText f.id, documentDir,
      [Log.extracting f.name, Log.extractedCount (env.fileText f.id).length],
      hpath, ?_⟩
    apply extractText_assembled
    simp [extractTextTry, hm, hsel, extractDocumentText, hc]
  case spreadsheet =>
    refine ⟨formatCsv (env.fileText f.id), spreadsheetDir,
      [Log.extracting f.name], hpath, ?_⟩
    apply extractText_assembled
    simp [extractTextTry, hm, hsel, extractSpreadsheetText, hc]
  case slides =>
    refine ⟨env.fileText f.id, slidesDir, [Log.extracting f.name], hpath, ?_⟩
    apply extractText_assembled
    simp [extractTextTry, hm, hsel, extractPresentationText, hc]
  case wordDoc =>
    refine ⟨env.fileText f.id, wordDocDir, [Log.extracting f.name], hpath, ?_⟩
    apply extractText_assembled
    simp [extractTextTry, hm, hsel, extractWordDoc, hc, hd]
  case plainText =>
    refine ⟨env.fileText f.id, plainTextDir, [Log.extracting f.name], hpath, ?_⟩
    apply extractText_assembled
    simp [extractTextTry, hm, hsel, extractPlainText, hc]

/-- A successfully processed supported file's artifact is present right
after its own loop iteration. -/
theorem processFile_writes (env : Env) (acc : FS × List Log) (f : DriveFile)
    (hw : env.writeOk = true) (hmem : f.mimeType ∈ fileTypes)
    (hs : stagesOk env f) :
    ∃ p, artifactPathOf f = some p
      ∧ lookupFile ((processFile env acc f).1).files p ≠ none := by
  obtain ⟨t, dir, L, hpath, hX⟩ := extractText_success env acc.1 f hmem hs
  refine ⟨outputPathFor f.name dir, hpath, ?_⟩
  simp only [processFile, hmem, if_true, hX]
  rw [saveFile_files, if_pos hw, lookupFile_overwrite, if_pos rfl]
  simp

/-- A path present before a loop iteration is still present after it. -/
theorem processFile_presence (env : Env) (acc : FS × List Log) (f : DriveFile)
    (q : OutPath) (h : lookupFile acc.1.files q ≠ none) :
    lookupFile ((processFile env acc f).1).files q ≠ none := by
  unfold processFile
  split
  · exact extractText_presence env acc.1 f q h
  · simpa using h

/-- A path present at some point of the batch loop is present at its end. -/
theorem foldl_processFile_presence (env : Env) :
    ∀ (files : List DriveFile) (acc : FS × List Log) (q : OutPath),
      lookupFile acc.1.files q ≠ none →
      lookupFile ((files.foldl (processFile env) acc).1).files q ≠ none := by
  intro files
  induction files with
  | nil => intro acc q h; simpa using h
  | cons f rest ih =>
    intro acc q h
    rw [List.foldl_cons]
    exact ih (processFile env acc f) q (processFile_presence env acc f q h)

/-- Every supported file of the batch whose stages all succeed has its
artifact present when the loop finishes, wherever it sits in the list. -/
theorem foldl_processFile_writes (env : Env) (hw : env.writeOk = true) :
    ∀ (files : List DriveFile) (acc : FS × List Log) (g : DriveFile),
      g ∈ files → g.mimeType ∈ fileTypes → stagesOk env g →
      ∃ p, artifactPathOf g = some p
        ∧ lookupFile ((files.foldl (processFile env) acc).1).files p ≠ none := by
  intro files
  induction files with
  | nil => intro acc g hg; exact absurd hg (List.not_mem_nil g)
  | cons f rest ih =>
    intro acc g hg hmem hs
    rw [List.foldl_cons]
    rcases List.mem_cons.mp hg with rfl | hg2
    · obtain ⟨p, hp, hpres⟩ := processFile_writes env acc g hw hmem hs
      exact ⟨p, hp, foldl_processFile_presence env rest _ p hpres⟩
    · exact ih (processFile env acc f) g hg2 hmem hs

/-- C6: every pipeline failure (unsupported format, fetch failure, decode
failure; write failures are already absorbed inside `saveFile`) is caught
at the `extractText` boundary and converted into a logged outcome; and
failures are isolated per file: in any batch, every file other than the
failing one whose stages succeed still has its artifact on disk when the
batch loop finishes. -/
theorem c6_failure_isolation :
    (∀ (env : Env) (fs : FS) (f : DriveFile) (e : Failure),
      (extractTextTry env fs f).1 = Except.error e →
        (extractText env fs f).1 = none
          ∧ Log.errorExtracting e ∈ (extractText env fs f).2.2)
    ∧ (∀ (env : Env) (fs : FS) (files : List DriveFile) (f0 : DriveFile),
        env.writeOk = true →
        (∀ g ∈ files, g ≠ f0 → g.mimeType ∈ fileTypes ∧ stagesOk env g) →
        ∀ g ∈ files, g ≠ f0 →
          ∃ p, artifactPathOf g = some p
            ∧ lookupFile ((mainRun env fs files).1).files p ≠ none) := by
  constructor
  · intro env fs f e h
    exact extractText_catch env fs f e h
  · intro env fs files f0 hw hOthers g hg hne
    obtain ⟨hmem, hs⟩ := hOthers g hg hne
    have hlen : files.length ≠ 0 := by
      cases files with
      | nil => exact absurd hg (List.not_mem_nil g)
      | cons _ _ => simp
    rw [mainRun, if_pos hlen]
    exact foldl_processFile_writes env hw files (fs, []) g hg hmem hs

/-- Witness for C6 on a concrete two-file batch whose first file (a PDF
with id 0) suffers a decode failure: the other file's artifact exists. -/
theorem c6_failure_isolation_witness :
    ∃ p, artifactPathOf fileTxt1 = some p
      ∧ lookupFile ((mainRun envDecodeFail0 fs0 [filePdf0, fileTxt1]).1).files p
          ≠ none :=
  c6_failure_isolation.2 envDecodeFail0 fs0 [filePdf0, fileTxt1] filePdf0 rfl
    (by unfold stagesOk; decide) fileTxt1 (by decide) (by decide)

/-- C10 counterexample: the claim states that every error raised during
writing also makes `extractText` resolve `undefined`.  In the code the
write error is caught inside `saveFile`, so `extractText` still resolves
with the extracted text: on a plain text file in an environment whose
writes fail, a save error is logged yet the result is the text, not
`undefined`. -/
theorem c10_write_error_still_some :
    envNoWrite.writeOk = false
    ∧ Log.saveError ∈ (extractText envNoWrite fs0 fileTxt1).2.2
    ∧ (extractText envNoWrite fs0 fileTxt1).1 = some (("hello").toList) := by
  decide

/-- C10 amended: `extractText` never rejects.  Every error of the `try`
body (metadata fetch, content fetch, decode, unsupported type) is caught
and it resolves `undefined`; a write error, however, is caught inside
`saveFile`, and `extractText` then resolves with the extracted text while
only a save-error line is logged. -/
theorem c10_never_rejects :
    (∀ (env : Env) (fs : FS) (f : DriveFile) (e : Failure),
      (extractTextTry env fs f).1 = Except.error e →
        (extractText env fs f).1 = none)
    ∧ (∀ (env : Env) (fs : FS) (f : DriveFile),
        env.metaOk f.id = false → (extractText env fs f).1 = none)
    ∧ (∀ (env : Env) (fs : FS) (f : DriveFile),
        selectExtractor f.mimeType = none → (extractText env fs f).1 = none)
    ∧ (∀ (env : Env) (fs : FS) (f : DriveFile),
        env.writeOk = false → f.mimeType ∈ fileTypes → stagesOk env f →
        (∃ t, (extractText env fs f).1 = some t)
          ∧ Log.saveError ∈ (extractText env fs f).2.2) := by
  refine ⟨?_, ?_, ?_, ?_⟩
  · intro env fs f e h
    exact (extractText_catch env fs f e h).1
  · intro env fs f hmeta
    refine (extractText_catch env fs f Failure.fetchFailure ?_).1
    simp [extractTextTry, hmeta]
  · intro env fs f hsel
    by_cases hm : env.metaOk f.id = true
    · refine (extractText_catch env fs f Failure.unsupportedFormat ?_).1
      simp [extractTextTry, hm, hsel]
    · have hmf : env.metaOk f.id = false := by
        revert hm; cases env.metaOk f.id <;> simp
      refine (extractText_catch env fs f Failure.fetchFailure ?_).1
      simp [extractTextTry, hmf]
  · intro env fs f hw hmem hs
    obtain ⟨t, dir, L, hpath, hX⟩ := extractText_success env fs f hmem hs
    rw [hX]
    refine ⟨⟨t, rfl⟩, ?_⟩
    simp only [List.mem_append]
    exact Or.inr (saveFile_saveError env fs t f.name dir hw)

/-- Witness for C10 at a concrete input with a failing metadata fetch:
`extractText` resolves `undefined`. -/
theorem c10_never_rejects_witness :
    (extractText envMetaFail fs0 fileTxt1).1 = none :=
  c10_never_rejects.2.1 envMetaFail fs0 fileTxt1 rfl
